import Mathlib

/-!
# Checklist Completion & Time-Tracking Engine — shallow embedding

This file embeds the state logic of the multi-sheet QC prototype view
(`src/web/src/pages/DigitalQCPrototype.tsx`) in Lean and proves the
behavioural properties stated in the specification.

Modelling conventions:
* JavaScript numbers are embedded as exact rationals (`ℚ`); clock readings
  (`Date.now()`) are integers in milliseconds (`ℤ`).
* JavaScript plain objects used as dictionaries are embedded as association
  lists with the object update semantics: writing to an existing key keeps
  its position, writing a fresh key appends it.
* `Math.round` is `jsRound : ℚ → ℤ`, the floor of `x + 1/2` (round half
  towards +∞), which is exactly ECMAScript `Math.round` on exact values.
* The `activeTimerRef` mutable ref is one `Option ActiveTimer` field of the
  component state; React state setters become pure state transformers that
  take the current clock reading `now` as an argument.
* The `useEffect` on `[jobId, employeeId]` is folded into `setJob` /
  `setEmployee`: React bails out when the value is unchanged, otherwise the
  effect stops a running timer (whose captured key the commit uses).
-/

/-- `clamp` from the source (`Math.max(a, Math.min(b, n))`). -/
def clamp (n a b : ℚ) : ℚ := max a (min b n)

/-- ECMAScript `Math.round`: floor of `x + 1/2`. -/
def jsRound (q : ℚ) : ℤ := ⌊q + 1/2⌋

/-- `percent(checked, total)` from the source:
`if (!total) return 0; return Math.round((checked / total) * 100)`. -/
def percent (checked total : ℕ) : ℤ :=
  if total = 0 then 0 else jsRound ((checked : ℚ) / (total : ℚ) * 100)

/-- The sheet kinds that carry checklist/timer state
(`Exclude<SheetId, "summary">`). -/
inductive Sheet where
  | housewire
  | integration
  | ee
deriving DecidableEq, Repr

/-- The string id of a sheet, as used for object keys and sort keys. -/
def Sheet.key : Sheet → String
  | .housewire => "housewire"
  | .integration => "integration"
  | .ee => "ee"

/-- Association-list lookup with JavaScript object semantics
(`o[k]`, `undefined` as `none`). -/
def alookup {α β : Type} [DecidableEq α] : List (α × β) → α → Option β
  | [], _ => none
  | (k', v) :: t, k => if k' = k then some v else alookup t k

/-- Association-list update with JavaScript object semantics: an existing
key is overwritten in place, a fresh key is appended. -/
def aset {α β : Type} [DecidableEq α] : List (α × β) → α → β → List (α × β)
  | [], k, v => [(k, v)]
  | (k', v') :: t, k, v =>
    if k' = k then (k, v) :: t else (k', v') :: aset t k v

/-- A checklist item (`ChecklistItem`); `isFlag` defaults to `false`
(absent marker in the source). -/
structure ChecklistItem where
  id : String
  label : String
  isFlag : Bool := false
deriving DecidableEq, Repr

/-- `housewireItems` from the source. -/
def housewireItems : List ChecklistItem :=
  [ { id := "hw-1", label := "Issue board reviewed for missing materials / open items." },
    { id := "hw-2", label := "QC-18 print checked against current revision." },
    { id := "hw-3", label := "All conductors landed per print (color / size verified)." },
    { id := "hw-4", label := "Boxes, wireways, receptacles, light switches properly wired." },
    { id := "hw-5", label := "Grounds verified and bonded per drawing." },
    { id := "hw-6", label := "Nameplates installed and legible." },
    { id := "hw-flag", label := "Issue found that requires write-up on comments sheet.",
      isFlag := true } ]

/-- `integrationItems` from the source. -/
def integrationItems : List ChecklistItem :=
  [ { id := "in-1", label := "All required panels, racks and devices installed." },
    { id := "in-2", label := "Shipping materials removed, moving parts free of obstruction." },
    { id := "in-3", label := "AC voltage applied per print, all loads operate correctly." },
    { id := "in-4", label := "Relays / coils verified for correct operation and labeling." },
    { id := "in-5", label := "All interlocks / alarms verified per functional test requirements." },
    { id := "in-flag", label := "Integration issue found that requires write-up / PM notification.",
      isFlag := true } ]

/-- `eeItems` from the source. -/
def eeItems : List ChecklistItem :=
  [ { id := "ee-1", label := "All covers in place or barriers installed per procedure." },
    { id := "ee-2", label := "Test equipment calibrated and recorded on sheet." },
    { id := "ee-3", label := "Dielectric / hipot testing completed and results acceptable." },
    { id := "ee-4", label := "Polarity and phasing verified per drawing and nameplates." },
    { id := "ee-5", label := "Control circuits function tested (start/stop, alarms, trips)." },
    { id := "ee-flag", label := "Test failure / abnormal condition observed.", isFlag := true } ]

/-- `jobs` from the source (ids and labels). -/
def jobs : List (String × String) :=
  [ ("61148", "61148 – Invenergy Lazboddie Wind"),
    ("61210", "61210 – Example Solar Farm"),
    ("61325", "61325 – Data Center Upgrade") ]

/-- `employees` from the source (ids and labels). -/
def employees : List (String × String) :=
  [ ("GW", "GW – Gordon Walker"),
    ("MZ", "MZ – Matt Zuern"),
    ("MM", "MM – Mike Moser"),
    ("TG", "TG – Tom Golfis") ]

/-- One sheet's checkbox map (`Record<string, boolean>`);
an absent id reads as unchecked. -/
abbrev CheckMap := List (String × Bool)

/-- `!!checkedMap[id]`: lookup defaulting to `false`. -/
def lookupChecked (m : CheckMap) (id : String) : Bool :=
  (alookup m id).getD false

/-- The per-sheet checkbox state
(`Record<Exclude<SheetId,"summary">, Record<string, boolean>>`). -/
structure Checks where
  housewire : CheckMap
  integration : CheckMap
  ee : CheckMap
deriving DecidableEq, Repr

/-- Read one sheet's map out of `checks`. -/
def Checks.get (c : Checks) : Sheet → CheckMap
  | .housewire => c.housewire
  | .integration => c.integration
  | .ee => c.ee

/-- Replace one sheet's map (the object spread `{...prev, [sheet]: m}`). -/
def Checks.set (c : Checks) : Sheet → CheckMap → Checks
  | .housewire, m => { c with housewire := m }
  | .integration, m => { c with integration := m }
  | .ee, m => { c with ee := m }

/-- Innermost level of the time log: employee id → accumulated seconds. -/
abbrev EmpMap := List (String × ℚ)

/-- Middle level: sheet → employee map. -/
abbrev SheetMap := List (Sheet × EmpMap)

/-- `TimeLog`: job id → sheet → employee id → accumulated seconds. -/
abbrev TimeLog := List (String × SheetMap)

/-- The single mutable active-timer ref (`activeTimerRef.current`),
holding the key captured at start and the start instant in ms. -/
structure ActiveTimer where
  jobId : String
  sheetId : Sheet
  employeeId : String
  startMs : ℤ
deriving DecidableEq, Repr

/-- The component state relevant to the engine: current job/employee
context, checkbox maps, committed time log, and the active-timer ref. -/
structure State where
  jobId : String
  employeeId : String
  checks : Checks
  timeLog : TimeLog
  activeTimer : Option ActiveTimer
deriving DecidableEq, Repr

/-- The initial component state: `jobs[0].id`, `employees[0].id`, empty
check maps, empty time log, no active timer. -/
def initState : State :=
  { jobId := "61148", employeeId := "GW",
    checks := ⟨[], [], []⟩, timeLog := [], activeTimer := none }

/-- `timeLog[job]?.[sheet]?.[emp] ?? 0`: the committed seconds for a key. -/
def committedSeconds (log : TimeLog) (job : String) (sheet : Sheet)
    (emp : String) : ℚ :=
  (((alookup log job).bind fun sm =>
    (alookup sm sheet).bind fun em => alookup em emp)).getD 0

/-- The ledger update inside `stopTimer`: create the missing levels
(`if (!next[j]) next[j] = {}` …) and add `delta` to the existing value
(`?? 0`). -/
def commitDelta (log : TimeLog) (job : String) (sheet : Sheet) (emp : String)
    (delta : ℚ) : TimeLog :=
  let sm := (alookup log job).getD []
  let em := (alookup sm sheet).getD []
  let existing := (alookup em emp).getD 0
  aset log job (aset sm sheet (aset em emp (existing + delta)))

/-- `stopTimer()`: no-op when the ref is `null`; otherwise commit
`(now − startMs) / 1000` seconds under the captured key and clear the ref. -/
def stopTimer (now : ℤ) (st : State) : State :=
  match st.activeTimer with
  | none => st
  | some a =>
    { st with
      timeLog := commitDelta st.timeLog a.jobId a.sheetId a.employeeId
        (((now - a.startMs : ℤ) : ℚ) / 1000)
      activeTimer := none }

/-- `startTimer(sheetId)`: stop any running timer first, then set the ref
to the current context key with `startMs = Date.now()`. -/
def startTimer (sheetId : Sheet) (now : ℤ) (st : State) : State :=
  let st1 := if st.activeTimer.isSome then stopTimer now st else st
  { st1 with
    activeTimer := some ⟨st1.jobId, sheetId, st1.employeeId, now⟩ }

/-- `setJobId` plus the `useEffect` on `[jobId, employeeId]`: React bails
out when the value is unchanged; otherwise the value changes and the effect
stops a running timer (the commit uses the ref's captured key). -/
def setJob (newJob : String) (now : ℤ) (st : State) : State :=
  if newJob = st.jobId then st
  else
    let st1 := { st with jobId := newJob }
    if st1.activeTimer.isSome then stopTimer now st1 else st1

/-- `setEmployeeId` plus the same effect, symmetrically. -/
def setEmployee (newEmp : String) (now : ℤ) (st : State) : State :=
  if newEmp = st.employeeId then st
  else
    let st1 := { st with employeeId := newEmp }
    if st1.activeTimer.isSome then stopTimer now st1 else st1

/-- `getStoredSeconds(job, sheet, emp)`: the committed value plus, when the
active ref matches the key in all three components, the in-progress delta
`(now − startMs) / 1000`. -/
def getStoredSeconds (st : State) (now : ℤ) (job : String) (sheet : Sheet)
    (emp : String) : ℚ :=
  let base := committedSeconds st.timeLog job sheet emp
  match st.activeTimer with
  | some a =>
    if a.jobId = job ∧ a.sheetId = sheet ∧ a.employeeId = emp then
      base + ((now - a.startMs : ℤ) : ℚ) / 1000
    else base
  | none => base

/-- The `isRunning` expression passed to `TimeTracking`:
the ref is set and matches the key in all three components. -/
def isRunning (st : State) (job : String) (sheet : Sheet) (emp : String) :
    Bool :=
  match st.activeTimer with
  | some a => a.jobId == job && a.sheetId == sheet && a.employeeId == emp
  | none => false

/-- `toggle(sheet, id, next)`: spread-update one sheet's map at one id. -/
def toggle (sheet : Sheet) (id : String) (next : Bool) (st : State) : State :=
  { st with checks := st.checks.set sheet (aset (st.checks.get sheet) id next) }

/-- The stats computed per sheet (`housewireStats` / `integrationStats` /
`eeStats`): completion percent and flag status. -/
def sheetStats (items : List ChecklistItem) (m : CheckMap) : ℤ × Bool :=
  let total := items.length
  let checked := (items.filter fun i => lookupChecked m i.id).length
  let flagged := items.any fun i => i.isFlag && lookupChecked m i.id
  (percent checked total, flagged)

/-- A row of the dashboard time summary. -/
structure Row where
  sheetId : Sheet
  emp : String
  minutes : ℤ
deriving DecidableEq, Repr

/-- The string sort key of a row (`a.sheetId + a.emp`). -/
def Row.sortKey (r : Row) : String := r.sheetId.key ++ r.emp

/-- The nested `forEach` building the base rows of `timeSummaryRows`:
one row per ledger entry of the job with `sec` not falsy (`if (!sec) return`),
with `minutes = Math.round(sec / 60)`. -/
def baseRows (jobData : SheetMap) : List Row :=
  jobData.flatMap fun p =>
    p.2.filterMap fun q =>
      if q.2 = 0 then none
      else some ⟨p.1, q.1, jsRound (q.2 / 60)⟩

/-- `rows.find(...)` followed by `already.minutes = liveMin`: replace the
first element satisfying `p` by `f` of it. -/
def updateFirst {α : Type} (p : α → Bool) (f : α → α) : List α → List α
  | [] => []
  | r :: t => if p r then f r :: t else r :: updateFirst p f t

/-- The unsorted rows of `timeSummaryRows`: base rows from the current
job's ledger entries; when the active timer's job matches, overwrite (or,
when live seconds are positive, append) the active key's row with the live
minutes. -/
def preSortRows (st : State) (now : ℤ) : List Row :=
  let jobData := (alookup st.timeLog st.jobId).getD []
  let rows := baseRows jobData
  match st.activeTimer with
  | some a =>
    if a.jobId = st.jobId then
      let liveSec := getStoredSeconds st now st.jobId a.sheetId a.employeeId
      let liveMin := jsRound (liveSec / 60)
      if rows.any fun r : Row => r.sheetId == a.sheetId && r.emp == a.employeeId then
        updateFirst (fun r : Row => r.sheetId == a.sheetId && r.emp == a.employeeId)
          (fun r : Row => { r with minutes := liveMin }) rows
      else if 0 < liveSec then
        rows ++ [({ sheetId := a.sheetId, emp := a.employeeId, minutes := liveMin } : Row)]
      else rows
    else rows
  | none => rows

/-- `timeSummaryRows`: the unsorted rows, stably sorted by the
concatenated key `sheetId + emp` (`localeCompare` on the ASCII ids used
here agrees with the code-point order). -/
def timeSummaryRows (st : State) (now : ℤ) : List Row :=
  (preSortRows st now).mergeSort fun r r' => decide (r.sortKey ≤ r'.sortKey)

/-! ## Association-list lemmas -/

theorem alookup_aset_self {α β : Type} [DecidableEq α] (l : List (α × β))
    (k : α) (v : β) : alookup (aset l k v) k = some v := by
  induction l with
  | nil => simp [aset, alookup]
  | cons p t ih =>
    by_cases h : p.1 = k
    · simp [aset, alookup, h]
    · simp [aset, alookup, h, ih]

theorem alookup_aset_ne {α β : Type} [DecidableEq α] (l : List (α × β))
    (k k' : α) (v : β) (h : k' ≠ k) :
    alookup (aset l k v) k' = alookup l k' := by
  induction l with
  | nil => simp [aset, alookup, if_neg (Ne.symm h)]
  | cons p t ih =>
    by_cases hp : p.1 = k
    · subst hp
      simp [aset, alookup, if_neg (Ne.symm h)]
    · simp only [aset, if_neg hp, alookup]
      by_cases hp' : p.1 = k'
      · simp [hp']
      · simp [hp', ih]

theorem mem_of_alookup_eq_some {α β : Type} [DecidableEq α]
    {l : List (α × β)} {k : α} {v : β} (h : alookup l k = some v) :
    (k, v) ∈ l := by
  induction l with
  | nil => simp [alookup] at h
  | cons p t ih =>
    by_cases hp : p.1 = k
    · simp only [alookup, if_pos hp] at h
      obtain ⟨a, b⟩ := p
      simp only at hp
      subst hp
      obtain rfl : b = v := Option.some.inj h
      exact List.mem_cons_self _ _
    · simp only [alookup, if_neg hp] at h
      exact List.mem_cons_of_mem _ (ih h)

theorem alookup_eq_some_of_mem {α β : Type} [DecidableEq α]
    {l : List (α × β)} {k : α} {v : β}
    (hnd : (l.map Prod.fst).Nodup) (h : (k, v) ∈ l) :
    alookup l k = some v := by
  induction l with
  | nil => simp at h
  | cons p t ih =>
    simp only [List.map_cons, List.nodup_cons] at hnd
    rcases List.mem_cons.mp h with h | h
    · cases h
      simp [alookup]
    · have hp : p.1 ≠ k := by
        intro hk
        exact hnd.1 (hk ▸ (List.mem_map.mpr ⟨(k, v), h, rfl⟩))
      simp only [alookup, if_neg hp]
      exact ih hnd.2 h

/-! ## Commit lemmas: reading the ledger after `commitDelta` -/

theorem committedSeconds_commitDelta_self (log : TimeLog) (j : String)
    (s : Sheet) (e : String) (d : ℚ) :
    committedSeconds (commitDelta log j s e d) j s e
      = committedSeconds log j s e + d := by
  unfold committedSeconds commitDelta
  rcases hj : alookup log j with _ | sm
  · simp only [hj, alookup_aset_self, Option.getD_none, Option.bind_some,
      Option.none_bind, Option.getD_none]
    simp [alookup, alookup_aset_self]
  · simp only [hj, Option.getD_some, alookup_aset_self, Option.some_bind]
    rcases hs : alookup sm s with _ | em
    · simp [hs, alookup_aset_self, alookup]
    · simp [hs, alookup_aset_self]

theorem committedSeconds_commitDelta_ne (log : TimeLog) (j : String)
    (s : Sheet) (e : String) (d : ℚ) (j' : String) (s' : Sheet) (e' : String)
    (h : (j', s', e') ≠ (j, s, e)) :
    committedSeconds (commitDelta log j s e d) j' s' e'
      = committedSeconds log j' s' e' := by
  unfold committedSeconds commitDelta
  by_cases hj : j' = j
  · subst hj
    rcases hjl : alookup log j' with _ | sm
    · simp only [hjl, alookup_aset_self, Option.getD_none, Option.some_bind,
        Option.none_bind, Option.getD_none]
      by_cases hs : s' = s
      · subst hs
        have he : e' ≠ e := by
          intro hee
          exact h (by rw [hee])
        simp [alookup, alookup_aset_ne _ _ _ _ he, if_neg (Ne.symm he)]
      · simp [alookup_aset_ne _ _ _ _ hs, alookup, if_neg (Ne.symm hs)]
    · simp only [hjl, Option.getD_some, alookup_aset_self, Option.some_bind]
      by_cases hs : s' = s
      · subst hs
        have he : e' ≠ e := by
          intro hee
          exact h (by rw [hee])
        rcases hsl : alookup sm s' with _ | em
        · simp [hsl, alookup_aset_self, alookup_aset_ne _ _ _ _ he, alookup,
            if_neg (Ne.symm he)]
        · simp [hsl, alookup_aset_self, alookup_aset_ne _ _ _ _ he]
      · simp [alookup_aset_ne _ _ _ _ hs]
  · simp [alookup_aset_ne _ _ _ _ hj]

/-! ## Claims about the timer state machine -/

/-- A concrete state exhibiting claim C1's scenario: a timer started at
clock reading 2000 ms over a ledger holding 5 s for its key, stopped at the
earlier clock reading 1000 ms. -/
def c1State : State :=
  { jobId := "61148", employeeId := "GW", checks := ⟨[], [], []⟩,
    timeLog := [("61148", [(Sheet.housewire, [("GW", 5)])])],
    activeTimer := some ⟨"61148", Sheet.housewire, "GW", 2000⟩ }

/-- Claim C1, checked against the code: `stopTimer` does **not** clamp a
negative delta. Stopping at clock reading 1000 ms a timer started at
2000 ms commits `(1000 − 2000)/1000 = −1` s, so the committed value for the
key drops from 5 to 4 — the ledger decreases, contradicting the claim that
the committed value never decreases. -/
theorem claim_C1_no_clamp_ledger_decreases :
    committedSeconds c1State.timeLog "61148" Sheet.housewire "GW" = 5
    ∧ committedSeconds (stopTimer 1000 c1State).timeLog "61148" Sheet.housewire "GW" = 4 := by
  constructor <;>
    norm_num [c1State, stopTimer, commitDelta, committedSeconds, alookup, aset]

/-- Claim C2: at most one timer runs at any time — two running keys in the
same state coincide — and after `start(A)` then `start(B)` for distinct
keys, A is no longer running, B is running, and A's ledger entry received
exactly the elapsed time between the two starts. -/
theorem claim_C2_single_active_timer :
    (∀ (st : State) (j1 : String) (s1 : Sheet) (e1 : String)
        (j2 : String) (s2 : Sheet) (e2 : String),
      isRunning st j1 s1 e1 = true → isRunning st j2 s2 e2 = true →
      j1 = j2 ∧ s1 = s2 ∧ e1 = e2)
    ∧ ∀ (st : State) (sA sB : Sheet) (t0 t1 : ℤ),
        st.activeTimer = none → sA ≠ sB →
        isRunning (startTimer sB t1 (startTimer sA t0 st)) st.jobId sA st.employeeId = false
        ∧ isRunning (startTimer sB t1 (startTimer sA t0 st)) st.jobId sB st.employeeId = true
        ∧ committedSeconds (startTimer sB t1 (startTimer sA t0 st)).timeLog
            st.jobId sA st.employeeId
          = committedSeconds st.timeLog st.jobId sA st.employeeId
            + ((t1 - t0 : ℤ) : ℚ) / 1000 := by
  constructor
  · intro st j1 s1 e1 j2 s2 e2 h1 h2
    rcases h : st.activeTimer with _ | a
    · simp [isRunning, h] at h1
    · simp only [isRunning, h, Bool.and_eq_true, beq_iff_eq] at h1 h2
      obtain ⟨⟨hj1, hs1⟩, he1⟩ := h1
      obtain ⟨⟨hj2, hs2⟩, he2⟩ := h2
      exact ⟨hj1 ▸ hj2, hs1 ▸ hs2, he1 ▸ he2⟩
  · intro st sA sB t0 t1 hnone hne
    refine ⟨?_, ?_, ?_⟩
    · simp [startTimer, stopTimer, hnone, isRunning, Ne.symm hne]
    · simp [startTimer, stopTimer, hnone, isRunning]
    · simp [startTimer, stopTimer, hnone, committedSeconds_commitDelta_self]

/-- Claim C3: changing the job or the employee while a timer runs stops it
first, committing the elapsed delta under the key captured at start; no
other ledger key changes, no timer remains running, and the checkbox state
and the other context component are untouched. -/
theorem claim_C3_context_switch_commits :
    ∀ (st : State) (a : ActiveTimer) (now : ℤ) (j' e' : String),
      st.activeTimer = some a →
      (j' ≠ st.jobId →
        (setJob j' now st).activeTimer = none
        ∧ (setJob j' now st).jobId = j'
        ∧ (setJob j' now st).employeeId = st.employeeId
        ∧ (setJob j' now st).checks = st.checks
        ∧ committedSeconds (setJob j' now st).timeLog a.jobId a.sheetId a.employeeId
            = committedSeconds st.timeLog a.jobId a.sheetId a.employeeId
              + ((now - a.startMs : ℤ) : ℚ) / 1000
        ∧ ∀ (j : String) (s : Sheet) (e : String),
            (j, s, e) ≠ (a.jobId, a.sheetId, a.employeeId) →
            committedSeconds (setJob j' now st).timeLog j s e
              = committedSeconds st.timeLog j s e)
      ∧ (e' ≠ st.employeeId →
        (setEmployee e' now st).activeTimer = none
        ∧ (setEmployee e' now st).employeeId = e'
        ∧ (setEmployee e' now st).jobId = st.jobId
        ∧ (setEmployee e' now st).checks = st.checks
        ∧ committedSeconds (setEmployee e' now st).timeLog a.jobId a.sheetId a.employeeId
            = committedSeconds st.timeLog a.jobId a.sheetId a.employeeId
              + ((now - a.startMs : ℤ) : ℚ) / 1000
        ∧ ∀ (j : String) (s : Sheet) (e : String),
            (j, s, e) ≠ (a.jobId, a.sheetId, a.employeeId) →
            committedSeconds (setEmployee e' now st).timeLog j s e
              = committedSeconds st.timeLog j s e) := by
  intro st a now j' e' ha
  constructor
  · intro hj
    refine ⟨?_, ?_, ?_, ?_, ?_, ?_⟩
    · simp [setJob, hj, stopTimer, ha]
    · simp [setJob, hj, stopTimer, ha]
    · simp [setJob, hj, stopTimer, ha]
    · simp [setJob, hj, stopTimer, ha]
    · simp [setJob, hj, stopTimer, ha, committedSeconds_commitDelta_self]
    · intro j s e hne
      simp only [setJob, if_neg hj, stopTimer, ha, Option.isSome_some, if_pos rfl]
      exact committedSeconds_commitDelta_ne _ _ _ _ _ _ _ _ hne
  · intro he
    refine ⟨?_, ?_, ?_, ?_, ?_, ?_⟩
    · simp [setEmployee, he, stopTimer, ha]
    · simp [setEmployee, he, stopTimer, ha]
    · simp [setEmployee, he, stopTimer, ha]
    · simp [setEmployee, he, stopTimer, ha]
    · simp [setEmployee, he, stopTimer, ha, committedSeconds_commitDelta_self]
    · intro j s e hne
      simp only [setEmployee, if_neg he, stopTimer, ha, Option.isSome_some, if_pos rfl]
      exact committedSeconds_commitDelta_ne _ _ _ _ _ _ _ _ hne

/-- Claim C4: the live-seconds query equals the committed value plus —
exactly when the active timer matches the key in all three components —
the in-progress delta; it is a pure read, so repeated polls at the same
clock reading return the same value. -/
theorem claim_C4_live_query :
    ∀ (st : State) (now : ℤ) (j : String) (s : Sheet) (e : String),
      (∀ a : ActiveTimer, st.activeTimer = some a →
        a.jobId = j → a.sheetId = s → a.employeeId = e →
        getStoredSeconds st now j s e
          = committedSeconds st.timeLog j s e + ((now - a.startMs : ℤ) : ℚ) / 1000)
      ∧ (isRunning st j s e = false →
          getStoredSeconds st now j s e = committedSeconds st.timeLog j s e)
      ∧ getStoredSeconds st now j s e = getStoredSeconds st now j s e := by
  intro st now j s e
  refine ⟨?_, ?_, rfl⟩
  · intro a ha h1 h2 h3
    simp [getStoredSeconds, ha, h1, h2, h3]
  · intro hrun
    rcases ha : st.activeTimer with _ | a
    · simp [getStoredSeconds, ha]
    · simp only [getStoredSeconds, ha]
      rw [if_neg]
      rintro ⟨h1, h2, h3⟩
      simp [isRunning, ha, h1, h2, h3] at hrun

/-- Claim C6: starting the exact key that is already running is not a
no-op; the elapsed delta is committed and the timer restarts at the fresh
clock reading. -/
theorem claim_C6_restart_same_key :
    ∀ (st : State) (s : Sheet) (t0 now : ℤ),
      st.activeTimer = some ⟨st.jobId, s, st.employeeId, t0⟩ →
      (startTimer s now st).activeTimer = some ⟨st.jobId, s, st.employeeId, now⟩
      ∧ committedSeconds (startTimer s now st).timeLog st.jobId s st.employeeId
          = committedSeconds st.timeLog st.jobId s st.employeeId
            + ((now - t0 : ℤ) : ℚ) / 1000 := by
  intro st s t0 now h
  constructor
  · simp [startTimer, stopTimer, h]
  · simp [startTimer, stopTimer, h, committedSeconds_commitDelta_self]

/-- Claim C7: stopping with no active timer is a no-op — the whole state,
hence the ledger, the active-timer ref and every check map, is unchanged —
and a second stop with no intervening start changes nothing. -/
theorem claim_C7_stop_idle_noop :
    ∀ (st : State) (now now2 : ℤ),
      (st.activeTimer = none → stopTimer now st = st)
      ∧ stopTimer now2 (stopTimer now st) = stopTimer now st := by
  intro st now now2
  constructor
  · intro h
    simp [stopTimer, h]
  · rcases h : st.activeTimer with _ | a
    · simp [stopTimer, h]
    · simp [stopTimer, h]

/-! ## Claims about the checklist aggregation -/

/-- Claim C8: the completion percent is 0 for an empty item list and
otherwise the round-half-up of `100 · checked / total`, always an integer
in `0..100`. -/
theorem claim_C8_percent_correct :
    ∀ (items : List ChecklistItem) (m : CheckMap),
      (items = [] → (sheetStats items m).1 = 0)
      ∧ (items ≠ [] →
          (sheetStats items m).1 =
            ⌊(100 * ((items.filter fun i => lookupChecked m i.id).length : ℚ))
                / (items.length : ℚ) + 1/2⌋)
      ∧ 0 ≤ (sheetStats items m).1 ∧ (sheetStats items m).1 ≤ 100 := by
  intro items m
  have hle : ((items.filter fun i => lookupChecked m i.id).length : ℚ)
      ≤ (items.length : ℚ) := by
    exact_mod_cast List.length_filter_le _ _
  refine ⟨?_, ?_, ?_, ?_⟩
  · rintro rfl
    simp [sheetStats, percent]
  · intro h
    have ht : items.length ≠ 0 := fun h0 => h (List.length_eq_zero.mp h0)
    simp only [sheetStats, percent, if_neg ht, jsRound]
    congr 1
    ring
  · by_cases ht : items.length = 0
    · simp [sheetStats, percent, ht]
    · simp only [sheetStats, percent, if_neg ht, jsRound]
      refine Int.le_floor.mpr ?_
      have h0 : (0:ℚ) ≤ ((items.filter fun i => lookupChecked m i.id).length : ℚ)
          / (items.length : ℚ) * 100 := by positivity
      push_cast
      linarith
  · by_cases ht : items.length = 0
    · simp [sheetStats, percent, ht]
    · simp only [sheetStats, percent, if_neg ht, jsRound]
      have htpos : (0:ℚ) < (items.length : ℚ) := by
        exact_mod_cast Nat.pos_of_ne_zero ht
      have hx : ((items.filter fun i => lookupChecked m i.id).length : ℚ)
          / (items.length : ℚ) ≤ 1 := (div_le_one htpos).mpr hle
      have hfl : ⌊((items.filter fun i => lookupChecked m i.id).length : ℚ)
          / (items.length : ℚ) * 100 + 1/2⌋ < 101 := by
        refine Int.floor_lt.mpr ?_
        push_cast
        nlinarith
      omega

/-- Claim C9: a sheet is flagged iff some item marked `isFlag` is checked;
toggling an id used by no flag item never changes the flag, and when every
flag item is unchecked the flag is clear. -/
theorem claim_C9_flag_iff :
    ∀ (items : List ChecklistItem) (m : CheckMap),
      ((sheetStats items m).2 = true ↔
        ∃ i ∈ items, i.isFlag = true ∧ lookupChecked m i.id = true)
      ∧ (∀ (id : String) (b : Bool), (∀ i ∈ items, i.isFlag = true → i.id ≠ id) →
          (sheetStats items (aset m id b)).2 = (sheetStats items m).2)
      ∧ ((∀ i ∈ items, i.isFlag = true → lookupChecked m i.id = false) →
          (sheetStats items m).2 = false) := by
  intro items m
  refine ⟨?_, ?_, ?_⟩
  · simp [sheetStats, List.any_eq_true, Bool.and_eq_true]
  · intro id b hid
    simp only [sheetStats]
    rw [Bool.eq_iff_iff]
    simp only [List.any_eq_true, Bool.and_eq_true]
    constructor
    · rintro ⟨i, hi, hf, hc⟩
      refine ⟨i, hi, hf, ?_⟩
      rwa [lookupChecked, alookup_aset_ne _ _ _ _ (hid i hi hf)] at hc
    · rintro ⟨i, hi, hf, hc⟩
      refine ⟨i, hi, hf, ?_⟩
      rwa [lookupChecked, alookup_aset_ne _ _ _ _ (hid i hi hf)]
  · intro hall
    simp only [sheetStats, List.any_eq_false]
    intro i hi
    cases hf : i.isFlag
    · simp
    · simp [hall i hi hf]

/-- Claim C10: toggling one checklist item touches only that sheet's map at
that id — the ledger, the active timer, the context, the other sheets'
maps and the same sheet's other entries are unchanged. -/
theorem claim_C10_toggle_frame :
    ∀ (st : State) (s : Sheet) (id : String) (b : Bool),
      (toggle s id b st).timeLog = st.timeLog
      ∧ (toggle s id b st).activeTimer = st.activeTimer
      ∧ (toggle s id b st).jobId = st.jobId
      ∧ (toggle s id b st).employeeId = st.employeeId
      ∧ (∀ s' : Sheet, s' ≠ s → (toggle s id b st).checks.get s' = st.checks.get s')
      ∧ alookup ((toggle s id b st).checks.get s) id = some b
      ∧ ∀ id' : String, id' ≠ id →
          alookup ((toggle s id b st).checks.get s) id' = alookup (st.checks.get s) id' := by
  intro st s id b
  have hget : ∀ (c : Checks) (m : CheckMap), (c.set s m).get s = m := by
    intro c m
    cases s <;> rfl
  have hget' : ∀ (c : Checks) (m : CheckMap) (s' : Sheet), s' ≠ s →
      (c.set s m).get s' = c.get s' := by
    intro c m s' h
    cases s <;> cases s' <;> first | rfl | exact absurd rfl h
  have hck : (toggle s id b st).checks = st.checks.set s (aset (st.checks.get s) id b) := rfl
  refine ⟨rfl, rfl, rfl, rfl, ?_, ?_, ?_⟩
  · intro s' h
    rw [hck, hget' _ _ _ h]
  · rw [hck, hget]
    exact alookup_aset_self _ _ _
  · intro id' h
    rw [hck, hget]
    exact alookup_aset_ne _ _ _ _ h

/-! ## Concrete witnesses -/

/-- A state with a timer running on (61148, housewire, GW) started at 0 ms. -/
def c3State : State := startTimer Sheet.housewire 0 initState

/-- Witness for C2: from the initial state, start housewire at 0 ms and
integration at 60000 ms. -/
theorem claim_C2_witness :
    isRunning (startTimer Sheet.integration 60000 (startTimer Sheet.housewire 0 initState))
        initState.jobId Sheet.housewire initState.employeeId = false
    ∧ isRunning (startTimer Sheet.integration 60000 (startTimer Sheet.housewire 0 initState))
        initState.jobId Sheet.integration initState.employeeId = true
    ∧ committedSeconds
        (startTimer Sheet.integration 60000 (startTimer Sheet.housewire 0 initState)).timeLog
        initState.jobId Sheet.housewire initState.employeeId
      = committedSeconds initState.timeLog initState.jobId Sheet.housewire initState.employeeId
        + ((60000 - 0 : ℤ) : ℚ) / 1000 :=
  claim_C2_single_active_timer.2 initState Sheet.housewire Sheet.integration 0 60000 rfl
    (by decide)

/-- Witness for C3: switching to job 61210 at 40000 ms commits 40 s under
(61148, housewire, GW) and leaves no timer running. -/
theorem claim_C3_witness :
    (setJob "61210" 40000 c3State).activeTimer = none
    ∧ committedSeconds (setJob "61210" 40000 c3State).timeLog "61148" Sheet.housewire "GW"
      = committedSeconds c3State.timeLog "61148" Sheet.housewire "GW"
        + ((40000 - 0 : ℤ) : ℚ) / 1000 := by
  have h := (claim_C3_context_switch_commits c3State
    ⟨"61148", Sheet.housewire, "GW", 0⟩ 40000 "61210" "MZ" rfl).1 (by decide)
  exact ⟨h.1, h.2.2.2.2.1⟩

/-- Witness for C4: polling at 90000 ms with the timer running on the
queried key returns committed plus the 90 s delta. -/
theorem claim_C4_witness :
    getStoredSeconds c3State 90000 c3State.jobId Sheet.housewire c3State.employeeId
      = committedSeconds c3State.timeLog c3State.jobId Sheet.housewire c3State.employeeId
        + ((90000 - 0 : ℤ) : ℚ) / 1000 :=
  (claim_C4_live_query c3State 90000 c3State.jobId Sheet.housewire c3State.employeeId).1
    ⟨"61148", Sheet.housewire, "GW", 0⟩ rfl rfl rfl rfl

/-- Witness for C6: restarting housewire at 90000 ms while it is already
running commits 90 s and resets the start instant. -/
theorem claim_C6_witness :
    (startTimer Sheet.housewire 90000 c3State).activeTimer
      = some ⟨"61148", Sheet.housewire, "GW", 90000⟩
    ∧ committedSeconds (startTimer Sheet.housewire 90000 c3State).timeLog
        "61148" Sheet.housewire "GW"
      = committedSeconds c3State.timeLog "61148" Sheet.housewire "GW"
        + ((90000 - 0 : ℤ) : ℚ) / 1000 :=
  claim_C6_restart_same_key c3State Sheet.housewire 0 90000 rfl

/-- Witness for C7: stopping the idle initial state changes nothing. -/
theorem claim_C7_witness : stopTimer 5000 initState = initState :=
  (claim_C7_stop_idle_noop initState 5000 0).1 rfl

/-- Witness for C8: the 6-item integration sheet with three items checked. -/
theorem claim_C8_witness :
    (sheetStats integrationItems [("in-1", true), ("in-2", true), ("in-3", true)]).1
      = ⌊(100 * ((integrationItems.filter fun i =>
            lookupChecked [("in-1", true), ("in-2", true), ("in-3", true)] i.id).length : ℚ))
          / (integrationItems.length : ℚ) + 1/2⌋ :=
  (claim_C8_percent_correct integrationItems
    [("in-1", true), ("in-2", true), ("in-3", true)]).2.1 (by decide)

/-- Witness for C9: toggling the non-flag item `ee-1` does not change the
flag status of the EE sheet. -/
theorem claim_C9_witness :
    (sheetStats eeItems (aset [] "ee-1" true)).2 = (sheetStats eeItems []).2 :=
  (claim_C9_flag_iff eeItems []).2.1 "ee-1" true (by decide)

/-- Witness for C10: toggling `hw-1` on housewire leaves the ledger and the
EE check map unchanged. -/
theorem claim_C10_witness :
    (toggle Sheet.housewire "hw-1" true initState).timeLog = initState.timeLog
    ∧ (toggle Sheet.housewire "hw-1" true initState).checks.get Sheet.ee
        = initState.checks.get Sheet.ee := by
  have h := claim_C10_toggle_frame initState Sheet.housewire "hw-1" true
  exact ⟨h.1, h.2.2.2.2.1 Sheet.ee (by decide)⟩

/-! ## Lemmas towards the time-summary claim -/

/-- The committed seconds read inside one job's `SheetMap`. -/
def committedIn (jobData : SheetMap) (s : Sheet) (e : String) : ℚ :=
  ((alookup jobData s).bind fun em => alookup em e).getD 0

/-- Well-formedness of one job's data: unique sheet keys and unique
employee keys per sheet (JavaScript objects cannot repeat a key). -/
def WFSheetMap (jobData : SheetMap) : Prop :=
  (jobData.map Prod.fst).Nodup ∧ ∀ p ∈ jobData, (p.2.map Prod.fst).Nodup

/-- Well-formedness of the whole time log. -/
def WFTimeLog (log : TimeLog) : Prop :=
  (log.map Prod.fst).Nodup ∧ ∀ p ∈ log, WFSheetMap p.2

theorem committedSeconds_eq_committedIn (log : TimeLog) (j : String)
    (s : Sheet) (e : String) :
    committedSeconds log j s e = committedIn ((alookup log j).getD []) s e := by
  rcases h : alookup log j with _ | sm
  · simp [committedSeconds, committedIn, h, alookup]
  · simp [committedSeconds, committedIn, h]

theorem wfSheetMap_of_wfTimeLog {log : TimeLog} (hwf : WFTimeLog log)
    (j : String) : WFSheetMap ((alookup log j).getD []) := by
  rcases h : alookup log j with _ | sm
  · exact ⟨List.nodup_nil, by simp⟩
  · exact hwf.2 _ (mem_of_alookup_eq_some h)

theorem getStoredSeconds_eq_base (st : State) (now : ℤ) (j : String)
    (s : Sheet) (e : String)
    (h : ∀ a : ActiveTimer, st.activeTimer = some a →
      ¬(a.jobId = j ∧ a.sheetId = s ∧ a.employeeId = e)) :
    getStoredSeconds st now j s e = committedSeconds st.timeLog j s e := by
  rcases ha : st.activeTimer with _ | a
  · simp [getStoredSeconds, ha]
  · simp only [getStoredSeconds, ha]
    exact if_neg (h a ha)

theorem getStoredSeconds_eq_base_add (st : State) (now : ℤ) (a : ActiveTimer)
    (ha : st.activeTimer = some a) :
    getStoredSeconds st now a.jobId a.sheetId a.employeeId
      = committedSeconds st.timeLog a.jobId a.sheetId a.employeeId
        + ((now - a.startMs : ℤ) : ℚ) / 1000 := by
  simp [getStoredSeconds, ha]

/-- The (sheet, employee) key of a summary row. -/
def rowKey (r : Row) : Sheet × String := (r.sheetId, r.emp)

theorem mem_baseRows_iff {jobData : SheetMap} {r : Row} :
    r ∈ baseRows jobData ↔
      ∃ p ∈ jobData, ∃ q ∈ p.2,
        q.2 ≠ 0 ∧ r = ⟨p.1, q.1, jsRound (q.2 / 60)⟩ := by
  simp only [baseRows, List.mem_flatMap, List.mem_filterMap]
  constructor
  · rintro ⟨p, hp, q, hq, hsome⟩
    by_cases hz : q.2 = 0
    · rw [if_pos hz] at hsome
      exact absurd hsome (by simp)
    · rw [if_neg hz] at hsome
      exact ⟨p, hp, q, hq, hz, (Option.some.inj hsome).symm⟩
  · rintro ⟨p, hp, q, hq, hne, rfl⟩
    exact ⟨p, hp, q, hq, by rw [if_neg hne]⟩

theorem exists_baseRow_iff {jobData : SheetMap} (hwf : WFSheetMap jobData)
    (s : Sheet) (e : String) :
    (∃ r ∈ baseRows jobData, r.sheetId = s ∧ r.emp = e) ↔
      committedIn jobData s e ≠ 0 := by
  constructor
  · rintro ⟨r, hr, hs, he⟩
    obtain ⟨p, hp, q, hq, hne, rfl⟩ := mem_baseRows_iff.mp hr
    obtain ⟨s', em⟩ := p
    obtain ⟨e', sec⟩ := q
    obtain rfl : s' = s := hs
    obtain rfl : e' = e := he
    have h1 : alookup jobData s' = some em := alookup_eq_some_of_mem hwf.1 hp
    have h2 : alookup em e' = some sec := alookup_eq_some_of_mem (hwf.2 _ hp) hq
    simpa [committedIn, h1, h2] using hne
  · intro hne
    rcases hs : alookup jobData s with _ | em
    · simp [committedIn, hs] at hne
    · rcases he : alookup em e with _ | sec
      · simp [committedIn, hs, he] at hne
      · have hsec : sec ≠ 0 := by simpa [committedIn, hs, he] using hne
        refine ⟨⟨s, e, jsRound (sec / 60)⟩, ?_, rfl, rfl⟩
        exact mem_baseRows_iff.mpr ⟨(s, em), mem_of_alookup_eq_some hs,
          (e, sec), mem_of_alookup_eq_some he, hsec, rfl⟩

theorem baseRows_minutes {jobData : SheetMap} (hwf : WFSheetMap jobData) :
    ∀ r ∈ baseRows jobData,
      r.minutes = jsRound (committedIn jobData r.sheetId r.emp / 60) := by
  intro r hr
  obtain ⟨p, hp, q, hq, hne, rfl⟩ := mem_baseRows_iff.mp hr
  obtain ⟨s', em⟩ := p
  obtain ⟨e', sec⟩ := q
  have h1 : alookup jobData s' = some em := alookup_eq_some_of_mem hwf.1 hp
  have h2 : alookup em e' = some sec := alookup_eq_some_of_mem (hwf.2 _ hp) hq
  simp [committedIn, h1, h2]

theorem baseRows_sheet_mem {jobData : SheetMap} {r : Row}
    (hr : r ∈ baseRows jobData) : r.sheetId ∈ jobData.map Prod.fst := by
  obtain ⟨p, hp, q, hq, hne, rfl⟩ := mem_baseRows_iff.mp hr
  exact List.mem_map.mpr ⟨p, hp, rfl⟩

theorem baseRows_pairwise : ∀ {jobData : SheetMap}, WFSheetMap jobData →
    (baseRows jobData).Pairwise
      (fun r r' => ¬(r.sheetId = r'.sheetId ∧ r.emp = r'.emp))
  | [], _ => by simp [baseRows]
  | p :: t, hwf => by
    have hnd := hwf.1
    rw [List.map_cons, List.nodup_cons] at hnd
    have hwt : WFSheetMap t :=
      ⟨hnd.2, fun q hq => hwf.2 q (List.mem_cons_of_mem _ hq)⟩
    have hbase : baseRows (p :: t)
        = (p.2.filterMap fun q =>
            if q.2 = 0 then none
            else some ⟨p.1, q.1, jsRound (q.2 / 60)⟩) ++ baseRows t := by
      simp [baseRows]
    rw [hbase, List.pairwise_append]
    refine ⟨?_, baseRows_pairwise hwt, ?_⟩
    · have hemp : p.2.Pairwise (fun q q' : String × ℚ => q.1 ≠ q'.1) :=
        List.pairwise_map.mp (hwf.2 p (List.mem_cons_self _ _))
      refine List.Pairwise.filterMap _ ?_ hemp
      intro q q' hqq b hb b' hb'
      by_cases hz : q.2 = 0
      · rw [if_pos hz] at hb
        exact absurd hb (by simp)
      · rw [if_neg hz] at hb
        by_cases hz' : q'.2 = 0
        · rw [if_pos hz'] at hb'
          exact absurd hb' (by simp)
        · rw [if_neg hz'] at hb'
          obtain rfl : b = ⟨p.1, q.1, jsRound (q.2 / 60)⟩ := Option.some.inj hb.symm
          obtain rfl : b' = ⟨p.1, q'.1, jsRound (q'.2 / 60)⟩ := Option.some.inj hb'.symm
          rintro ⟨-, h2⟩
          exact hqq h2
    · intro r hr r' hr'
      have h1 : r.sheetId = p.1 := by
        obtain ⟨q, hq, hsome⟩ := List.mem_filterMap.mp hr
        by_cases hz : q.2 = 0
        · rw [if_pos hz] at hsome
          exact absurd hsome (by simp)
        · rw [if_neg hz] at hsome
          obtain rfl : r = ⟨p.1, q.1, jsRound (q.2 / 60)⟩ := Option.some.inj hsome.symm
          rfl
      have h2 := baseRows_sheet_mem hr'
      rintro ⟨hss, -⟩
      exact hnd.1 (h1 ▸ hss ▸ h2)

theorem updateFirst_map_eq {α γ : Type} (p : α → Bool) (f : α → α) (g : α → γ)
    (hf : ∀ a, g (f a) = g a) :
    ∀ l : List α, (updateFirst p f l).map g = l.map g
  | [] => rfl
  | a :: t => by
    by_cases h : p a = true
    · simp [updateFirst, h, hf]
    · simp [updateFirst, h, updateFirst_map_eq p f g hf t]

theorem updateFirst_row_spec (s0 : Sheet) (e0 : String) (m : ℤ) :
    ∀ l : List Row,
      l.Pairwise (fun r r' => ¬(r.sheetId = r'.sheetId ∧ r.emp = r'.emp)) →
      ∀ r' ∈ updateFirst (fun r => r.sheetId == s0 && r.emp == e0)
          (fun r => { r with minutes := m }) l,
        (r'.sheetId = s0 ∧ r'.emp = e0 ∧ r'.minutes = m)
        ∨ (r' ∈ l ∧ ¬(r'.sheetId = s0 ∧ r'.emp = e0))
  | [], _, r', hr' => by simp [updateFirst] at hr'
  | a :: t, hpw, r', hr' => by
    by_cases h : (a.sheetId == s0 && a.emp == e0) = true
    · rw [updateFirst, if_pos h] at hr'
      simp only [Bool.and_eq_true, beq_iff_eq] at h
      rcases List.mem_cons.mp hr' with rfl | hmem
      · exact Or.inl ⟨h.1, h.2, rfl⟩
      · refine Or.inr ⟨List.mem_cons_of_mem _ hmem, ?_⟩
        rintro ⟨h1, h2⟩
        exact (List.pairwise_cons.mp hpw).1 r' hmem ⟨by rw [h.1, h1], by rw [h.2, h2]⟩
    · rw [updateFirst, if_neg h] at hr'
      simp only [Bool.and_eq_true, beq_iff_eq] at h
      rcases List.mem_cons.mp hr' with rfl | hmem
      · exact Or.inr ⟨List.mem_cons_self _ _, h⟩
      · rcases updateFirst_row_spec s0 e0 m t (List.pairwise_cons.mp hpw).2 r' hmem with
          h' | ⟨hm, hk⟩
        · exact Or.inl h'
        · exact Or.inr ⟨List.mem_cons_of_mem _ hm, hk⟩

theorem exists_row_iff_mem_keys {l : List Row} {s : Sheet} {e : String} :
    (∃ r ∈ l, r.sheetId = s ∧ r.emp = e) ↔ (s, e) ∈ l.map rowKey := by
  rw [List.mem_map]
  constructor
  · rintro ⟨r, hr, h1, h2⟩
    exact ⟨r, hr, by simp [rowKey, h1, h2]⟩
  · rintro ⟨r, hr, h⟩
    exact ⟨r, hr, congrArg Prod.fst h, congrArg Prod.snd h⟩

theorem pairwise_keys_iff (l : List Row) :
    l.Pairwise (fun r r' => ¬(r.sheetId = r'.sheetId ∧ r.emp = r'.emp)) ↔
      (l.map rowKey).Pairwise (fun k k' => k ≠ k') := by
  rw [List.pairwise_map]
  constructor <;> intro h <;> refine h.imp ?_ <;> intro r r'
  · intro hne hk
    exact hne ⟨congrArg Prod.fst hk, congrArg Prod.snd hk⟩
  · rintro hne ⟨h1, h2⟩
    exact hne (by simp [rowKey, h1, h2])

theorem preSortRows_eq_of_idle (st : State) (now : ℤ)
    (h : ∀ a : ActiveTimer, st.activeTimer = some a → a.jobId ≠ st.jobId) :
    preSortRows st now = baseRows ((alookup st.timeLog st.jobId).getD []) := by
  rcases ha : st.activeTimer with _ | a
  · simp [preSortRows, ha]
  · simp [preSortRows, ha, h a ha]

theorem preSortRows_eq_of_active (st : State) (now : ℤ) (a : ActiveTimer)
    (ha : st.activeTimer = some a) (hj : a.jobId = st.jobId) :
    preSortRows st now =
      (if (baseRows ((alookup st.timeLog st.jobId).getD [])).any
          (fun r : Row => r.sheetId == a.sheetId && r.emp == a.employeeId) then
        updateFirst (fun r : Row => r.sheetId == a.sheetId && r.emp == a.employeeId)
          (fun r : Row =>
            { r with minutes :=
                jsRound (getStoredSeconds st now st.jobId a.sheetId a.employeeId / 60) })
          (baseRows ((alookup st.timeLog st.jobId).getD []))
      else if 0 < getStoredSeconds st now st.jobId a.sheetId a.employeeId then
        baseRows ((alookup st.timeLog st.jobId).getD [])
          ++ [(⟨a.sheetId, a.employeeId,
                jsRound (getStoredSeconds st now st.jobId a.sheetId a.employeeId / 60)⟩ : Row)]
      else baseRows ((alookup st.timeLog st.jobId).getD [])) := by
  simp only [preSortRows, ha, hj, if_pos rfl, if_true]

theorem preSortRows_spec (st : State) (now : ℤ)
    (hwf : WFTimeLog st.timeLog)
    (hact : ∀ a : ActiveTimer, st.activeTimer = some a →
      a.startMs ≤ now ∧ 0 ≤ committedSeconds st.timeLog a.jobId a.sheetId a.employeeId) :
    (∀ (s : Sheet) (e : String),
      (∃ r ∈ preSortRows st now, r.sheetId = s ∧ r.emp = e) ↔
        getStoredSeconds st now st.jobId s e ≠ 0)
    ∧ (∀ r ∈ preSortRows st now,
        r.minutes = jsRound (getStoredSeconds st now st.jobId r.sheetId r.emp / 60))
    ∧ (preSortRows st now).Pairwise
        (fun r r' => ¬(r.sheetId = r'.sheetId ∧ r.emp = r'.emp)) := by
  have hwfJ := wfSheetMap_of_wfTimeLog hwf st.jobId
  by_cases hA : ∃ a : ActiveTimer, st.activeTimer = some a ∧ a.jobId = st.jobId
  case neg =>
    push_neg at hA
    have hrows := preSortRows_eq_of_idle st now hA
    have hlive : ∀ (s : Sheet) (e : String),
        getStoredSeconds st now st.jobId s e
          = committedIn ((alookup st.timeLog st.jobId).getD []) s e := by
      intro s e
      rw [getStoredSeconds_eq_base st now st.jobId s e (by
        rintro a' ha' ⟨h1, -, -⟩
        exact hA a' ha' h1), committedSeconds_eq_committedIn]
    rw [hrows]
    refine ⟨?_, ?_, baseRows_pairwise hwfJ⟩
    · intro s e
      rw [hlive s e]
      exact exists_baseRow_iff hwfJ s e
    · intro r hr
      rw [hlive r.sheetId r.emp]
      exact baseRows_minutes hwfJ r hr
  case pos =>
    obtain ⟨a, ha, hj⟩ := hA
    have hrows := preSortRows_eq_of_active st now a ha hj
    have hdelta : (0:ℚ) ≤ ((now - a.startMs : ℤ) : ℚ) / 1000 := by
      have h1 := (hact a ha).1
      have h2 : (0:ℚ) ≤ ((now - a.startMs : ℤ) : ℚ) := by
        exact_mod_cast Int.sub_nonneg.mpr h1
      linarith
    have hbase0 : 0 ≤ committedIn ((alookup st.timeLog st.jobId).getD [])
        a.sheetId a.employeeId := by
      have h := (hact a ha).2
      rwa [hj, committedSeconds_eq_committedIn] at h
    have hlive0 : getStoredSeconds st now st.jobId a.sheetId a.employeeId
        = committedIn ((alookup st.timeLog st.jobId).getD []) a.sheetId a.employeeId
          + ((now - a.startMs : ℤ) : ℚ) / 1000 := by
      have h := getStoredSeconds_eq_base_add st now a ha
      rw [hj, committedSeconds_eq_committedIn] at h
      exact h
    have hliveO : ∀ (s : Sheet) (e : String), ¬(s = a.sheetId ∧ e = a.employeeId) →
        getStoredSeconds st now st.jobId s e
          = committedIn ((alookup st.timeLog st.jobId).getD []) s e := by
      intro s e hne
      rw [getStoredSeconds_eq_base st now st.jobId s e (by
        rintro a' ha' ⟨-, h2, h3⟩
        rw [ha] at ha'
        obtain rfl : a = a' := Option.some.inj ha'
        exact hne ⟨h2.symm, h3.symm⟩), committedSeconds_eq_committedIn]
    by_cases hfind : ((baseRows ((alookup st.timeLog st.jobId).getD [])).any
        (fun r : Row => r.sheetId == a.sheetId && r.emp == a.employeeId)) = true
    case pos =>
      rw [hrows, if_pos hfind]
      have hex : ∃ r ∈ baseRows ((alookup st.timeLog st.jobId).getD []),
          r.sheetId = a.sheetId ∧ r.emp = a.employeeId := by
        obtain ⟨r, hr, h⟩ := List.any_eq_true.mp hfind
        simp only [Bool.and_eq_true, beq_iff_eq] at h
        exact ⟨r, hr, h.1, h.2⟩
      have hbne : committedIn ((alookup st.timeLog st.jobId).getD [])
          a.sheetId a.employeeId ≠ 0 := (exists_baseRow_iff hwfJ _ _).mp hex
      have hbpos : 0 < committedIn ((alookup st.timeLog st.jobId).getD [])
          a.sheetId a.employeeId := lt_of_le_of_ne hbase0 (Ne.symm hbne)
      have hlpos : 0 < getStoredSeconds st now st.jobId a.sheetId a.employeeId := by
        rw [hlive0]
        linarith
      have hkeys := updateFirst_map_eq
        (fun r : Row => r.sheetId == a.sheetId && r.emp == a.employeeId)
        (fun r : Row =>
          { r with minutes :=
              jsRound (getStoredSeconds st now st.jobId a.sheetId a.employeeId / 60) })
        rowKey (fun r => rfl) (baseRows ((alookup st.timeLog st.jobId).getD []))
      have hpwb := baseRows_pairwise hwfJ
      refine ⟨?_, ?_, ?_⟩
      · intro s e
        rw [exists_row_iff_mem_keys, hkeys, ← exists_row_iff_mem_keys]
        by_cases hke : s = a.sheetId ∧ e = a.employeeId
        · obtain ⟨rfl, rfl⟩ := hke
          exact iff_of_true hex hlpos.ne'
        · rw [hliveO s e hke]
          exact exists_baseRow_iff hwfJ s e
      · intro r hr
        rcases updateFirst_row_spec a.sheetId a.employeeId _ _ hpwb r hr with
          ⟨h1, h2, h3⟩ | ⟨hm, hk⟩
        · rw [h3, h1, h2]
        · rw [hliveO r.sheetId r.emp hk]
          exact baseRows_minutes hwfJ r hm
      · rw [pairwise_keys_iff, hkeys, ← pairwise_keys_iff]
        exact hpwb
    case neg =>
      have hall : ∀ r ∈ baseRows ((alookup st.timeLog st.jobId).getD []),
          ¬(r.sheetId = a.sheetId ∧ r.emp = a.employeeId) := by
        intro r hr h
        exact hfind (List.any_eq_true.mpr ⟨r, hr, by simp [h.1, h.2]⟩)
      have hc0 : committedIn ((alookup st.timeLog st.jobId).getD [])
          a.sheetId a.employeeId = 0 := by
        by_contra hc
        obtain ⟨r, hr, h⟩ := (exists_baseRow_iff hwfJ _ _).mpr hc
        exact hall r hr h
      by_cases hpos : 0 < getStoredSeconds st now st.jobId a.sheetId a.employeeId
      · rw [hrows, if_neg hfind, if_pos hpos]
        refine ⟨?_, ?_, ?_⟩
        · intro s e
          by_cases hke : s = a.sheetId ∧ e = a.employeeId
          · obtain ⟨rfl, rfl⟩ := hke
            refine iff_of_true ?_ hpos.ne'
            exact ⟨⟨a.sheetId, a.employeeId,
              jsRound (getStoredSeconds st now st.jobId a.sheetId a.employeeId / 60)⟩,
              List.mem_append.mpr (Or.inr (by simp)), rfl, rfl⟩
          · rw [hliveO s e hke]
            constructor
            · rintro ⟨r, hr, h1, h2⟩
              rcases List.mem_append.mp hr with hr | hr
              · exact (exists_baseRow_iff hwfJ s e).mp ⟨r, hr, h1, h2⟩
              · obtain rfl : r = ⟨a.sheetId, a.employeeId,
                    jsRound (getStoredSeconds st now st.jobId a.sheetId a.employeeId / 60)⟩ :=
                  List.mem_singleton.mp hr
                exact absurd ⟨h1.symm, h2.symm⟩ hke
            · intro hcne
              obtain ⟨r, hr, h⟩ := (exists_baseRow_iff hwfJ s e).mpr hcne
              exact ⟨r, List.mem_append.mpr (Or.inl hr), h⟩
        · intro r hr
          rcases List.mem_append.mp hr with hr | hr
          · rw [hliveO r.sheetId r.emp (hall r hr)]
            exact baseRows_minutes hwfJ r hr
          · obtain rfl : r = ⟨a.sheetId, a.employeeId,
                jsRound (getStoredSeconds st now st.jobId a.sheetId a.employeeId / 60)⟩ :=
              List.mem_singleton.mp hr
            rfl
        · rw [List.pairwise_append]
          refine ⟨baseRows_pairwise hwfJ, by simp, ?_⟩
          intro r hr r' hr'
          obtain rfl : r' = ⟨a.sheetId, a.employeeId,
              jsRound (getStoredSeconds st now st.jobId a.sheetId a.employeeId / 60)⟩ :=
            List.mem_singleton.mp hr'
          exact hall r hr
      · rw [hrows, if_neg hfind, if_neg hpos]
        have hl0 : getStoredSeconds st now st.jobId a.sheetId a.employeeId = 0 := by
          have hge : 0 ≤ getStoredSeconds st now st.jobId a.sheetId a.employeeId := by
            rw [hlive0, hc0, zero_add]
            exact hdelta
          have := not_lt.mp hpos
          linarith
        refine ⟨?_, ?_, baseRows_pairwise hwfJ⟩
        · intro s e
          by_cases hke : s = a.sheetId ∧ e = a.employeeId
          · obtain ⟨rfl, rfl⟩ := hke
            refine iff_of_false ?_ (by rw [hl0]; simp)
            rintro ⟨r, hr, h⟩
            exact hall r hr h
          · rw [hliveO s e hke]
            exact exists_baseRow_iff hwfJ s e
        · intro r hr
          rw [hliveO r.sheetId r.emp (hall r hr)]
          exact baseRows_minutes hwfJ r hr

/-- Claim C5: for every job (the state's current job) and every well-formed
state under a monotone clock, the time summary has exactly one row per
(sheet, employee) pair with non-zero live time — including the active
timer's key when its job matches, even when its committed value is zero —
each row's minutes are the round-half-up of its live seconds over 60, and
the rows are sorted by the concatenated key `sheetId + emp`. -/
theorem claim_C5_time_summary :
    ∀ (st : State) (now : ℤ),
      WFTimeLog st.timeLog →
      (∀ a : ActiveTimer, st.activeTimer = some a →
        a.startMs ≤ now ∧ 0 ≤ committedSeconds st.timeLog a.jobId a.sheetId a.employeeId) →
      (∀ (s : Sheet) (e : String),
        (∃ r ∈ timeSummaryRows st now, r.sheetId = s ∧ r.emp = e) ↔
          getStoredSeconds st now st.jobId s e ≠ 0)
      ∧ (∀ r ∈ timeSummaryRows st now,
          r.minutes = jsRound (getStoredSeconds st now st.jobId r.sheetId r.emp / 60))
      ∧ (timeSummaryRows st now).Pairwise
          (fun r r' => ¬(r.sheetId = r'.sheetId ∧ r.emp = r'.emp))
      ∧ (timeSummaryRows st now).Pairwise
          (fun r r' => r.sortKey ≤ r'.sortKey) := by
  intro st now hwf hact
  obtain ⟨hmem, hmin, hpw⟩ := preSortRows_spec st now hwf hact
  have hperm : (timeSummaryRows st now).Perm (preSortRows st now) :=
    List.mergeSort_perm _ _
  refine ⟨?_, ?_, ?_, ?_⟩
  · intro s e
    rw [← hmem s e]
    constructor
    · rintro ⟨r, hr, h⟩
      exact ⟨r, hperm.mem_iff.mp hr, h⟩
    · rintro ⟨r, hr, h⟩
      exact ⟨r, hperm.mem_iff.mpr hr, h⟩
  · intro r hr
    exact hmin r (hperm.mem_iff.mp hr)
  · exact (hperm.pairwise_iff fun h hk => h ⟨hk.1.symm, hk.2.symm⟩).mpr hpw
  · unfold timeSummaryRows
    refine List.Pairwise.imp (fun h => of_decide_eq_true h) ?_
    apply List.sorted_mergeSort
    · intro x y z hxy hyz
      exact decide_eq_true (le_trans (of_decide_eq_true hxy) (of_decide_eq_true hyz))
    · intro x y
      rcases le_total x.sortKey y.sortKey with h | h <;> simp [h]

/-- A state matching the spec's summary example: committed 600 s on
(housewire, GW) and 0 s on (ee, MZ) for the current job, with a timer
running on (integration, TG) since 0 ms. -/
def c5State : State :=
  { jobId := "61148", employeeId := "GW", checks := ⟨[], [], []⟩,
    timeLog := [("61148", [(Sheet.housewire, [("GW", 600)]), (Sheet.ee, [("MZ", 0)])])],
    activeTimer := some ⟨"61148", Sheet.integration, "TG", 0⟩ }

/-- Witness for C5: at clock reading 30000 ms the summary of `c5State` has
a row for a pair exactly when its live seconds are non-zero, and is sorted
by the concatenated key. -/
theorem claim_C5_witness :
    ((∃ r ∈ timeSummaryRows c5State 30000, r.sheetId = Sheet.housewire ∧ r.emp = "GW") ↔
        getStoredSeconds c5State 30000 c5State.jobId Sheet.housewire "GW" ≠ 0)
    ∧ (∀ r ∈ timeSummaryRows c5State 30000,
        r.minutes = jsRound (getStoredSeconds c5State 30000 c5State.jobId r.sheetId r.emp / 60))
    ∧ (timeSummaryRows c5State 30000).Pairwise
        (fun r r' => r.sortKey ≤ r'.sortKey) := by
  have hwf : WFTimeLog c5State.timeLog := by
    constructor
    · decide
    · intro p hp
      rcases List.mem_singleton.mp hp with rfl
      constructor
      · decide
      · intro q hq
        rcases List.mem_cons.mp hq with rfl | hq
        · decide
        · rcases List.mem_singleton.mp hq with rfl
          decide
  have hact : ∀ a : ActiveTimer, c5State.activeTimer = some a →
      a.startMs ≤ 30000 ∧ 0 ≤ committedSeconds c5State.timeLog a.jobId a.sheetId a.employeeId := by
    intro a haa
    have h : some (⟨"61148", Sheet.integration, "TG", 0⟩ : ActiveTimer) = some a := haa
    obtain rfl : (⟨"61148", Sheet.integration, "TG", 0⟩ : ActiveTimer) = a := Option.some.inj h
    exact ⟨by decide, by decide⟩
  have h := claim_C5_time_summary c5State 30000 hwf hact
  exact ⟨h.1 Sheet.housewire "GW", h.2.1, h.2.2.2⟩
